import Mathlib

/-!
Verification development for the Zap Imóveis rental-listing toolkit
(`realstate/scraper.py`, `realstate/storage.py`).

The Python source is shallowly embedded: JSON-ish Python values become the
inductive `PyVal`, Python floats become rationals (`ℚ`), `datetime` values
become the `Timestamp` structure (an ISO date part plus a time-of-day part;
`isoformat` is injective on this representation), fallible operations return
`Option`, and the SQLite tables become explicit lists of rows.
-/

/-- A Python value as it appears in the decoded JSON payloads: `None`,
booleans, ints, floats (modelled as rationals; `nan`/`inf` are out of the
model's scope), strings, lists and string-keyed dicts. -/
inductive PyVal where
  | none : PyVal
  | bool : Bool → PyVal
  | int : Int → PyVal
  | float : ℚ → PyVal
  | str : String → PyVal
  | list : List PyVal → PyVal
  | dict : List (String × PyVal) → PyVal

/-- A decoded JSON object: an association list with the (unique) string keys
of a Python dict. -/
abbrev Dict := List (String × PyVal)

/-- Python `d.get(k)`: the value stored under `k`, or `None` when the key is
missing. -/
def pyGet (raw : Dict) (k : String) : PyVal :=
  match raw.find? (fun kv => kv.1 == k) with
  | some kv => kv.2
  | Option.none => PyVal.none

/-- Python `k in d` together with `d[k]`: `some` of the stored value when the
key is present. -/
def pyLookup (raw : Dict) (k : String) : Option PyVal :=
  (raw.find? (fun kv => kv.1 == k)).map (fun kv => kv.2)

/-- Python truthiness (`bool(v)`) for the modelled values. -/
def pyTruthy : PyVal → Bool
  | PyVal.none => false
  | PyVal.bool b => b
  | PyVal.int n => n != 0
  | PyVal.float q => q != 0
  | PyVal.str s => s != ""
  | PyVal.list l => !l.isEmpty
  | PyVal.dict d => !d.isEmpty

/-- Python `str.strip()`: drop leading and trailing whitespace. -/
def pyStrip (s : String) : String :=
  String.mk (((s.data.dropWhile Char.isWhitespace).reverse.dropWhile Char.isWhitespace).reverse)

/-- Python `str.upper()` restricted to the ASCII case mapping. -/
def pyUpper (s : String) : String :=
  String.mk (s.data.map Char.toUpper)

/-- Whether `pre` is a prefix of the character list `l` (Python `str.startswith`). -/
def charsStartWith : List Char → List Char → Bool
  | [], _ => true
  | _ :: _, [] => false
  | a :: as, b :: bs => a == b && charsStartWith as bs

/-- Python `s.startswith(pre)`. -/
def pyStartsWith (s pre : String) : Bool :=
  charsStartWith pre.data s.data

/-- Value of a non-empty digit string, `none` when any character is not a
decimal digit or the string is empty. -/
def digitsToNat : List Char → Option Nat
  | [] => Option.none
  | cs =>
    if cs.all Char.isDigit then
      some (cs.foldl (fun n c => 10 * n + (c.toNat - 48)) 0)
    else Option.none

/-- Models Python `float(s)` on the separator-free strings produced by the
scraper's cleanup rule: surrounding whitespace, an optional sign and a
non-empty run of decimal digits.  (Exponent, `inf`/`nan` and underscore
forms are outside the model's scope.)  A parse failure — Python's
`ValueError` — is the `none` result. -/
def pyParseFloat (s : String) : Option ℚ :=
  match (pyStrip s).data with
  | '+' :: rest => (digitsToNat rest).map (fun n => (n : ℚ))
  | '-' :: rest => (digitsToNat rest).map (fun n => -(n : ℚ))
  | cs => (digitsToNat cs).map (fun n => (n : ℚ))

/-- Models Python `int(s)`: surrounding whitespace, an optional sign and a
non-empty run of decimal digits; `none` on failure. -/
def pyParseInt (s : String) : Option Int :=
  match (pyStrip s).data with
  | '+' :: rest => (digitsToNat rest).map (fun n => (n : Int))
  | '-' :: rest => (digitsToNat rest).map (fun n => -(n : Int))
  | cs => (digitsToNat cs).map (fun n => (n : Int))

/-- Python `int(x)` on a float: truncation toward zero. -/
def truncQ (q : ℚ) : Int :=
  Int.tdiv q.num (q.den : Int)

/-- A UTC instant, split as its ISO calendar date (`YYYY-MM-DD`) and the rest
of the ISO rendering.  SQLite's `date(captured_at)` is the `date` field, and
`isoformat` is injective on this representation, so the pair itself serves as
the stored `TEXT` key. -/
structure Timestamp where
  date : String
  time : String
deriving DecidableEq, Repr

namespace ZapScraper

/-- `Listing` dataclass from `scraper.py`. -/
structure Listing where
  listing_id : String
  title : String
  neighborhood : String
  street : String
  city : String
  state : String
  area_m2 : Option ℚ
  bedrooms : Option Int
  bathrooms : Option Int
  parking_spaces : Option Int
  rent_price : Option ℚ
  condo_fee : Option ℚ
  price_per_m2 : Option ℚ
  furnished : Bool
  url : String
  captured_at : Timestamp
deriving DecidableEq, Repr

/-- `ZapScraper._get_float`: numbers pass through (Python treats `bool` as an
`int` subtype, so booleans coerce to `1.0`/`0.0`); strings are parsed after
removing every `.` and `,`; anything else is `None`. -/
def get_float : PyVal → Option ℚ
  | PyVal.none => Option.none
  | PyVal.bool b => some (if b then 1 else 0)
  | PyVal.int n => some (n : ℚ)
  | PyVal.float q => some q
  | PyVal.str s => pyParseFloat (String.mk (s.data.filter (fun c => !(c == '.' || c == ','))))
  | PyVal.list _ => Option.none
  | PyVal.dict _ => Option.none

/-- The cleanup step of `_get_float` on strings:
`value.replace(".", "").replace(",", "")`. -/
def stripSeparators (s : String) : String :=
  String.mk (s.data.filter (fun c => !(c == '.' || c == ',')))

/-- `ZapScraper._get_int`. -/
def get_int : PyVal → Option Int
  | PyVal.none => Option.none
  | PyVal.bool b => some (if b then 1 else 0)
  | PyVal.int n => some n
  | PyVal.float q => some (truncQ q)
  | PyVal.str s => pyParseInt (pyStrip s)
  | PyVal.list _ => Option.none
  | PyVal.dict _ => Option.none

/-- `ZapScraper._safe_str`. -/
def safe_str : PyVal → String
  | PyVal.str s => pyStrip s
  | _ => ""

/-- `ZapScraper._get_first_number`: on a non-empty list, the first element
that `_get_float` accepts; otherwise (including when no element parses)
`_get_float` of the value itself. -/
def get_first_number (v : PyVal) : Option ℚ :=
  match v with
  | PyVal.list (x :: xs) =>
    match (x :: xs).findSome? get_float with
    | some q => some q
    | Option.none => get_float (PyVal.list (x :: xs))
  | _ => get_float v

/-- `ZapScraper._get_listing_id`'s loop over the candidate keys: a key whose
value is a string with non-empty `strip()` wins and the stripped value is
returned; any other value (including a blank string) falls through to the
next candidate. -/
def get_listing_id_go (raw : Dict) : List String → Option String
  | [] => Option.none
  | k :: ks =>
    match pyGet raw k with
    | PyVal.str s => if pyStrip s = "" then get_listing_id_go raw ks else some (pyStrip s)
    | _ => get_listing_id_go raw ks

/-- `ZapScraper._get_listing_id`. -/
def get_listing_id (raw : Dict) : Option String :=
  get_listing_id_go raw ["id", "listingId", "detailId"]

/-- Python `a or b` on two `Optional[int]` values: the left operand wins when
it is truthy (`None` and `0` are falsy). -/
def pyOrInt (a b : Option Int) : Option Int :=
  match a with
  | some n => if n = 0 then b else some n
  | Option.none => b

/-- Whether one amenities/features entry renders (via `str`, `strip`,
`upper`) to a furnished marker.  `str()` of a non-string value never yields
the bare marker words, so only string entries can match. -/
def furnishedMarker (v : PyVal) : Bool :=
  match v with
  | PyVal.str s => pyUpper (pyStrip s) == "FURNISHED" || pyUpper (pyStrip s) == "MOBILIADO"
  | _ => false

/-- One of the two list scans in `_is_furnished`. -/
def hasFurnishedMarker (v : PyVal) : Bool :=
  match v with
  | PyVal.list l => l.any furnishedMarker
  | _ => false

/-- `ZapScraper._is_furnished`. -/
def is_furnished (raw : Dict) : Bool :=
  match pyGet raw "furnished" with
  | PyVal.bool b => b
  | _ => hasFurnishedMarker (pyGet raw "amenities") || hasFurnishedMarker (pyGet raw "features")

/-- First element of the pricing list that is a dict with
`businessType == "RENTAL"`. -/
def rentalBlock : List PyVal → Option Dict
  | [] => Option.none
  | PyVal.dict d :: rest =>
    if (match pyGet d "businessType" with
        | PyVal.str s => s == "RENTAL"
        | _ => false) then some d
    else rentalBlock rest
  | _ :: rest => rentalBlock rest

/-- First element of the pricing list that is a dict. -/
def firstDict : List PyVal → Option Dict
  | [] => Option.none
  | PyVal.dict d :: _ => some d
  | _ :: rest => firstDict rest

/-- `ZapScraper._select_pricing_info`. -/
def select_pricing_info : PyVal → Dict
  | PyVal.dict d => d
  | PyVal.list l =>
    match rentalBlock l with
    | some d => d
    | Option.none =>
      match firstDict l with
      | some d => d
      | Option.none => []
  | _ => []

/-- `ZapScraper._parse_price`: the first of `rentalTotalPrice`, `price`,
`value` that `_get_float` accepts (a `0.0` price is accepted — the code
tests `is not None`, not truthiness). -/
def parse_price (info : Dict) : Option ℚ :=
  match get_float (pyGet info "rentalTotalPrice") with
  | some q => some q
  | Option.none =>
    match get_float (pyGet info "price") with
    | some q => some q
    | Option.none => get_float (pyGet info "value")

/-- `ZapScraper._parse_fee`: `info.get("monthlyCondoFee") or
info.get("condominium")` (Python `or`, so a falsy fee such as `0` falls
through), then `_get_float`. -/
def parse_fee (info : Dict) : Option ℚ :=
  get_float
    (if pyTruthy (pyGet info "monthlyCondoFee") then pyGet info "monthlyCondoFee"
     else pyGet info "condominium")

/-- The key loop of `_extract_url`: a string value starting with `http`, or
a dict with an `href` string starting with `http`, wins. -/
def extract_url_go (raw : Dict) : List String → Option String
  | [] => Option.none
  | k :: ks =>
    match pyGet raw k with
    | PyVal.str s => if pyStartsWith s "http" then some s else extract_url_go raw ks
    | PyVal.dict d =>
      match pyGet d "href" with
      | PyVal.str h => if pyStartsWith h "http" then some h else extract_url_go raw ks
      | _ => extract_url_go raw ks
    | _ => extract_url_go raw ks

/-- `ZapScraper._extract_url`. -/
def extract_url (raw : Dict) : String :=
  match extract_url_go raw ["url", "link", "detailUrl"] with
  | some u => u
  | Option.none =>
    match get_listing_id raw with
    | some i => "https://www.zapimoveis.com.br/imovel/" ++ i
    | Option.none => "https://www.zapimoveis.com.br"

/-- `ZapScraper._normalise_listing`.  `now` is the value `datetime.now(
timezone.utc)` produces at line 200 of `scraper.py`: the source takes a fresh
clock reading inside each successful normalisation, so the caller of this
embedding supplies that reading explicitly.  The `ZeroDivisionError` guard of
the source is unreachable here because the division only happens when the
area is truthy, i.e. non-zero. -/
def normalise_listing (now : Timestamp) (raw : Dict) : Option Listing :=
  match get_listing_id raw with
  | Option.none => Option.none
  | some lid =>
    if lid = "" then Option.none
    else
      let address := match pyGet raw "address" with
        | PyVal.dict d => d
        | _ => []
      let neighborhood := safe_str (pyGet address "neighborhood")
      let city := safe_str (pyGet address "city")
      let state := safe_str (pyGet address "state")
      let street := safe_str (pyGet address "street")
      let area := get_first_number (pyGet raw "usableAreas")
      let bedrooms := pyOrInt (get_int (pyGet raw "bedrooms")) (get_int (pyGet raw "rooms"))
      let bathrooms := get_int (pyGet raw "bathrooms")
      let parking := get_int (pyGet raw "parkingSpaces")
      let furnished := is_furnished raw
      let pricing_info := select_pricing_info (pyGet raw "pricingInfos")
      let rent_price := parse_price pricing_info
      let condo_fee := parse_fee pricing_info
      let price_per_m2 : Option ℚ :=
        match area, rent_price with
        | some a, some r => if a ≠ 0 ∧ r ≠ 0 then some (r / a) else Option.none
        | _, _ => Option.none
      let t0 := safe_str (pyGet raw "title")
      let t1 := if t0 = "" then safe_str (pyGet raw "advertiseTitle") else t0
      let title :=
        if t1 = "" then
          if neighborhood ≠ "" then "Apartamento em " ++ neighborhood else "Apartamento"
        else t1
      let url := extract_url raw
      some
        { listing_id := lid
          title := title
          neighborhood := neighborhood
          street := street
          city := city
          state := state
          area_m2 := area
          bedrooms := bedrooms
          bathrooms := bathrooms
          parking_spaces := parking
          rent_price := rent_price
          condo_fee := condo_fee
          price_per_m2 := price_per_m2
          furnished := furnished
          url := url
          captured_at := now }

/-- `ZapScraper._extract_raw_listings`: the `listings` array, unwrapping each
element's inner `listing` object when there is one; a missing or non-list
`listings` value is the empty collection. -/
def extract_raw_listings (payload : Dict) : List Dict :=
  match pyGet payload "listings" with
  | PyVal.list l =>
    l.filterMap (fun item =>
      match item with
      | PyVal.dict d =>
        match pyLookup d "listing" with
        | some (PyVal.dict inner) => some inner
        | _ => some d
      | _ => Option.none)
  | _ => []

/-- Whether the `while` loop's guard `max_pages is not None and page >
max_pages` stops before fetching page number `page`. -/
def beyondCeiling : Option Nat → Nat → Bool
  | Option.none, _ => false
  | some m, page => m < page

/-- The inner `for raw_listing in raw_listings` loop of `iterate_listings`:
normalise each record (`clock tick` is the `datetime.now` reading the
normaliser takes, and each successful normalisation consumes one reading),
skip records that fail to normalise, skip records whose identifier is
already in `seen`, and emit the rest in order.  Returns the emitted
listings, the grown `seen` collection and the advanced clock position. -/
def emitPage (clock : Nat → Timestamp) :
    List Dict → List String → Nat → List Listing × List String × Nat
  | [], seen, tick => ([], seen, tick)
  | raw :: rest, seen, tick =>
    match normalise_listing (clock tick) raw with
    | Option.none => emitPage clock rest seen tick
    | some L =>
      if L.listing_id ∈ seen then emitPage clock rest seen (tick + 1)
      else
        match emitPage clock rest (L.listing_id :: seen) (tick + 1) with
        | (out, seen2, tick2) => (L :: out, seen2, tick2)

/-- `ZapScraper.iterate_listings` for one neighbourhood, driven by the list
of page payloads the transport would return (page `page` first).  The walk
breaks when the ceiling is crossed, when a page's raw-record collection is
empty, and — after emitting — when a page returns fewer raw records than the
configured page size; the inter-request `time.sleep` has no observable
effect in this model.  Returns the emitted listings and the advanced clock
position. -/
def iterate_listings_from (clock : Nat → Timestamp) (page_size : Nat) (maxPages : Option Nat) :
    List Dict → Nat → List String → Nat → List Listing × Nat
  | [], _page, _seen, tick => ([], tick)
  | payload :: rest, page, seen, tick =>
    if beyondCeiling maxPages page then ([], tick)
    else
      let raws := extract_raw_listings payload
      if raws.isEmpty then ([], tick)
      else
        match emitPage clock raws seen tick with
        | (out, seen2, tick2) =>
          if raws.length < page_size then (out, tick2)
          else
            match iterate_listings_from clock page_size maxPages rest (page + 1) seen2 tick2 with
            | (out2, tick3) => (out ++ out2, tick3)

/-- The raw records of exactly those pages the walk consumes (the walk's
termination tests depend only on the raw-record counts, never on the dedup
state). -/
def consumedRaws (page_size : Nat) (maxPages : Option Nat) :
    List Dict → Nat → List Dict
  | [], _page => []
  | payload :: rest, page =>
    if beyondCeiling maxPages page then []
    else
      let raws := extract_raw_listings payload
      if raws.isEmpty then []
      else if raws.length < page_size then raws
      else raws ++ consumedRaws page_size maxPages rest (page + 1)

/-- `ZapScraper.scrape`: one walk per configured neighbourhood, each starting
at page 1 with a fresh dedup set, with the clock position carried across
neighbourhoods (real time keeps advancing through the whole run). `fetch`
maps a neighbourhood to the page payloads its query would return. -/
def scrape (clock : Nat → Timestamp) (page_size : Nat) (maxPages : Option Nat)
    (fetch : String → List Dict) : List String → Nat → List Listing × Nat
  | [], tick => ([], tick)
  | nb :: rest, tick =>
    match iterate_listings_from clock page_size maxPages (fetch nb) 1 [] tick with
    | (out, tick2) =>
      match scrape clock page_size maxPages fetch rest tick2 with
      | (out2, tick3) => (out ++ out2, tick3)

end ZapScraper

namespace RealEstateDatabase

open ZapScraper (Listing)

/-- One row of the `listings` table of `storage.py` (the snapshot of a
listing's current state).  `furnished` is stored as the INTEGER
`int(listing.furnished)`. -/
structure SnapshotRow where
  listing_id : String
  title : String
  neighborhood : String
  street : String
  city : String
  state : String
  area_m2 : Option ℚ
  bedrooms : Option Int
  bathrooms : Option Int
  parking_spaces : Option Int
  furnished : Int
  url : String
  first_seen : Timestamp
  last_seen : Timestamp
deriving DecidableEq, Repr

/-- One row of the `price_history` table.  The `id` AUTOINCREMENT column is
not modelled: no query of the source reads it, and the conflict target is
`(listing_id, captured_at)`. -/
structure HistoryRow where
  listing_id : String
  captured_at : Timestamp
  rent_price : Option ℚ
  price_per_m2 : Option ℚ
  condo_fee : Option ℚ
  furnished : Int
deriving DecidableEq, Repr

/-- The database: the two tables, as ordered lists of rows. -/
structure DBState where
  listings : List SnapshotRow
  history : List HistoryRow
deriving DecidableEq, Repr

/-- The schema's integrity constraints: `listing_id` is the snapshot table's
primary key, and `(listing_id, captured_at)` is UNIQUE in `price_history`.
Every state SQLite can hold satisfies this. -/
def DBState.WF (S : DBState) : Prop :=
  (S.listings.map (fun r => r.listing_id)).Nodup ∧
  (S.history.map (fun h => (h.listing_id, h.captured_at))).Nodup

/-- The snapshot row the `INSERT INTO listings` VALUES clause builds: both
`first_seen` and `last_seen` are `listing.captured_at.isoformat()`. -/
def snapshotOfNew (L : Listing) : SnapshotRow :=
  { listing_id := L.listing_id
    title := L.title
    neighborhood := L.neighborhood
    street := L.street
    city := L.city
    state := L.state
    area_m2 := L.area_m2
    bedrooms := L.bedrooms
    bathrooms := L.bathrooms
    parking_spaces := L.parking_spaces
    furnished := if L.furnished then 1 else 0
    url := L.url
    first_seen := L.captured_at
    last_seen := L.captured_at }

/-- The `ON CONFLICT(listing_id) DO UPDATE` clause applied to the existing
row `r`: every descriptive field and `last_seen` are overwritten from the
excluded row, `first_seen` is left alone. -/
def snapshotUpdate (r : SnapshotRow) (L : Listing) : SnapshotRow :=
  { snapshotOfNew L with first_seen := r.first_seen }

/-- The history row the `INSERT INTO price_history` VALUES clause builds. -/
def historyOf (L : Listing) : HistoryRow :=
  { listing_id := L.listing_id
    captured_at := L.captured_at
    rent_price := L.rent_price
    price_per_m2 := L.price_per_m2
    condo_fee := L.condo_fee
    furnished := if L.furnished then 1 else 0 }

/-- The first `INSERT ... ON CONFLICT(listing_id) DO UPDATE` of
`_persist_listing_with_cursor`: the primary key guarantees at most one
conflicting row, which is updated in place; otherwise the new row is
appended. -/
def upsertSnapshot : List SnapshotRow → Listing → List SnapshotRow
  | [], L => [snapshotOfNew L]
  | r :: rest, L =>
    if r.listing_id = L.listing_id then snapshotUpdate r L :: rest
    else r :: upsertSnapshot rest L

/-- The second `INSERT ... ON CONFLICT(listing_id, captured_at) DO UPDATE`:
the UNIQUE constraint guarantees at most one conflicting row; the update
overwrites its four value columns, which (the keys being equal) makes the
updated row exactly `historyOf L`. -/
def upsertHistory : List HistoryRow → Listing → List HistoryRow
  | [], L => [historyOf L]
  | h :: rest, L =>
    if h.listing_id = L.listing_id ∧ h.captured_at = L.captured_at then historyOf L :: rest
    else h :: upsertHistory rest L

/-- `RealEstateDatabase.persist_listing` (via
`_persist_listing_with_cursor`): the snapshot upsert followed by the
history upsert, committed as one transaction. -/
def persist_listing (S : DBState) (L : Listing) : DBState :=
  { listings := upsertSnapshot S.listings L
    history := upsertHistory S.history L }

/-- The loop of `persist_many` over the listing stream.  An input stream
item is `Except.error e` when pulling the next element from the iterable
raises; the loop then stops with no result.  On a clean pass it returns the
final cursor state and the count of consumed listings. -/
def persistManyGo : DBState → Nat → List (Except String Listing) → Option (DBState × Nat)
  | S, n, [] => some (S, n)
  | _, _, Except.error _ :: _ => Option.none
  | S, n, Except.ok L :: rest => persistManyGo (persist_listing S L) (n + 1) rest

/-- `RealEstateDatabase.persist_many`.  All writes happen on one connection
inside `with self._connect() as conn:`; `conn.commit()` runs only after the
whole stream is consumed, and an exception raised while iterating makes the
context manager roll the transaction back, so the database is left exactly
as it was.  The second component is the returned count (`none` when the
call raised instead of returning). -/
def persist_many (S : DBState) (xs : List (Except String Listing)) : DBState × Option Nat :=
  match persistManyGo S 0 xs with
  | some (S2, n) => (S2, some n)
  | Option.none => (S, Option.none)

/-- The join/filter of `get_neighborhood_daily_average`: history points
joined to their snapshot row (unique, by the primary key), kept when the
snapshot's neighborhood matches and, when the filter is given, when the
point's furnished flag matches. -/
def joinedHistory (S : DBState) (nb : String) (furn : Option Bool) : List HistoryRow :=
  S.history.filter (fun ph =>
    S.listings.any (fun l => l.listing_id == ph.listing_id && l.neighborhood == nb) &&
      (match furn with
       | Option.none => true
       | some b => ph.furnished == (if b then 1 else 0)))

/-- SQL `AVG` over a column: `NULL` entries are skipped, and the average of
no values is `NULL`. -/
def avgOpt (vs : List ℚ) : Option ℚ :=
  if vs.isEmpty then Option.none else some (vs.sum / (vs.length : ℚ))

/-- One output row of `get_neighborhood_daily_average`. -/
structure DailyAverageRow where
  captured_date : String
  avg_rent_price : Option ℚ
  avg_price_per_m2 : Option ℚ
  listings : Nat
deriving DecidableEq, Repr

/-- `RealEstateDatabase.get_neighborhood_daily_average`: group the joined
history points by `date(ph.captured_at)`, output one row per calendar date
in ascending date order with the two `AVG`s and the `COUNT(*)`. -/
def get_neighborhood_daily_average (S : DBState) (nb : String) (furn : Option Bool) :
    List DailyAverageRow :=
  let pts := joinedHistory S nb furn
  let dates := ((pts.map (fun ph => ph.captured_at.date)).dedup).insertionSort (· ≤ ·)
  dates.map (fun d =>
    let group := pts.filter (fun ph => ph.captured_at.date == d)
    { captured_date := d
      avg_rent_price := avgOpt (group.filterMap (fun ph => ph.rent_price))
      avg_price_per_m2 := avgOpt (group.filterMap (fun ph => ph.price_per_m2))
      listings := group.length })

end RealEstateDatabase

/-!
Claim-side definitions.  Each follows the words of a spec sentence, for
comparison with the behaviour of the definitions above that were translated
from the source.
-/

/-- The spec's formula for the derived price (§3, §8): present with value
`rent_price / area_m2` whenever both are present and the area is strictly
positive, absent otherwise (including area = 0). -/
def price_per_m2_claimed (rent area : Option ℚ) : Option ℚ :=
  match rent, area with
  | some r, some a => if 0 < a then some (r / a) else Option.none
  | _, _ => Option.none

/-- The amended formula, matching the code: present with value
`rent_price / area_m2` whenever both are present and both are non-zero
(Python truthiness), absent otherwise — including when the area is zero
*or negative is fine*: a negative area still yields a (negative) value. -/
def price_per_m2_amended (rent area : Option ℚ) : Option ℚ :=
  match rent, area with
  | some r, some a => if r ≠ 0 ∧ a ≠ 0 then some (r / a) else Option.none
  | _, _ => Option.none

/-- The claim's identity-resolution rule, following its words: the first
candidate key, in priority order, holding a non-empty string wins, and the
trimmed value of that string is the listing id; when no candidate holds a
non-empty string the result is absent. -/
def listing_id_claimed_go (raw : Dict) : List String → Option String
  | [] => Option.none
  | k :: ks =>
    match pyGet raw k with
    | PyVal.str s => if s = "" then listing_id_claimed_go raw ks else some (pyStrip s)
    | _ => listing_id_claimed_go raw ks

/-- The claim's identity-resolution rule over the source's candidate keys. -/
def listing_id_claimed (raw : Dict) : Option String :=
  listing_id_claimed_go raw ["id", "listingId", "detailId"]

/-- The amended identity-resolution rule: the first candidate key holding a
string that is non-empty *after trimming* wins, and its trimmed value is the
listing id; when no candidate holds such a string the result is absent. -/
def listing_id_amended_go (raw : Dict) : List String → Option String
  | [] => Option.none
  | k :: ks =>
    match pyGet raw k with
    | PyVal.str s => if pyStrip s = "" then listing_id_amended_go raw ks else some (pyStrip s)
    | _ => listing_id_amended_go raw ks

/-- The amended identity-resolution rule over the source's candidate keys. -/
def listing_id_amended (raw : Dict) : Option String :=
  listing_id_amended_go raw ["id", "listingId", "detailId"]

/-- First-occurrence deduplication of a list of identifiers against an
already-seen collection: the order-preserving trace of the walker's dedup
set. -/
def emitIds (seen : List String) : List String → List String
  | [] => []
  | i :: rest => if i ∈ seen then emitIds seen rest else i :: emitIds (i :: seen) rest

example : ZapScraper.get_float (PyVal.str "60,00") = some 6000 := by decide
example : ZapScraper.get_float (PyVal.str "4.800") = some 4800 := by decide
example : ZapScraper.get_float (PyVal.str "abc") = Option.none := by decide
example : ZapScraper.get_float (PyVal.list []) = Option.none := by decide
example : ZapScraper.get_first_number (PyVal.list [PyVal.str "x", PyVal.float 80]) = some 80 := by
  decide
example : pyStrip "  a b " = "a b" := by decide

/-!
Concrete inputs used by counterexamples and witnesses.
-/

/-- A fixed instant. -/
def ts0 : Timestamp := ⟨"2024-01-01", "12:00:00+00:00"⟩

/-- A clock whose consecutive readings differ: reading `i` of
`datetime.now(timezone.utc)` lands at second `i` of the run. -/
def tickClock (i : Nat) : Timestamp := ⟨"2024-01-01", toString i⟩

def rawFix : Dict :=
  [("id", PyVal.str "12345"),
   ("title", PyVal.str "Apartamento mobiliado"),
   ("address", PyVal.dict [("neighborhood", PyVal.str "Pinheiros"),
                           ("city", PyVal.str "São Paulo"),
                           ("state", PyVal.str "SP"),
                           ("street", PyVal.str "Rua dos Pinheiros")]),
   ("usableAreas", PyVal.list [PyVal.str "80"]),
   ("bedrooms", PyVal.int 2),
   ("bathrooms", PyVal.int 2),
   ("parkingSpaces", PyVal.int 1),
   ("amenities", PyVal.list [PyVal.str "FURNISHED"]),
   ("pricingInfos", PyVal.list [PyVal.dict
      [("businessType", PyVal.str "RENTAL"),
       ("rentalTotalPrice", PyVal.str "4.800"),
       ("monthlyCondoFee", PyVal.str "900")]])]

example :
    (ZapScraper.normalise_listing ts0 rawFix).map
      (fun L => (L.listing_id, L.rent_price, L.area_m2, L.price_per_m2.isSome, L.furnished,
        L.url))
      = some ("12345", some 4800, some 80, true, true,
          "https://www.zapimoveis.com.br/imovel/12345") := by
  decide

def cexRaw4a : Dict :=
  [("id", PyVal.str "X"),
   ("usableAreas", PyVal.list [PyVal.float 50]),
   ("pricingInfos", PyVal.dict [("rentalTotalPrice", PyVal.float 0)])]

def cexRaw4b : Dict :=
  [("id", PyVal.str "Y"),
   ("usableAreas", PyVal.list [PyVal.float (-10)]),
   ("pricingInfos", PyVal.dict [("rentalTotalPrice", PyVal.float 100)])]

example :
    (ZapScraper.normalise_listing ts0 cexRaw4a).map
      (fun L => (L.rent_price, L.area_m2, L.price_per_m2))
      = some (some 0, some 50, Option.none) := by decide

example :
    (ZapScraper.normalise_listing ts0 cexRaw4b).map
      (fun L => (L.rent_price, L.area_m2, L.price_per_m2.isSome))
      = some (some 100, some (-10), true) := by decide

/-- The listing `normalise_listing` produces from `cexRaw4a`. -/
def wListing4 : ZapScraper.Listing :=
  { listing_id := "X"
    title := "Apartamento"
    neighborhood := ""
    street := ""
    city := ""
    state := ""
    area_m2 := some 50
    bedrooms := Option.none
    bathrooms := Option.none
    parking_spaces := Option.none
    rent_price := some 0
    condo_fee := Option.none
    price_per_m2 := Option.none
    furnished := false
    url := "https://www.zapimoveis.com.br/imovel/X"
    captured_at := ts0 }

def cexRaw5 : Dict := [("id", PyVal.str " ")]

example : ZapScraper.normalise_listing ts0 cexRaw5 = Option.none := by decide

open RealEstateDatabase

/-- The empty database (the state right after `_ensure_schema`). -/
def dbEmpty : DBState := { listings := [], history := [] }

/-- A concrete listing for persistence witnesses. -/
def wL1 : ZapScraper.Listing :=
  { listing_id := "ABC123"
    title := "Apartamento de teste"
    neighborhood := "Pinheiros"
    street := "Rua Teste"
    city := "Sao Paulo"
    state := "SP"
    area_m2 := some 80
    bedrooms := some 2
    bathrooms := some 2
    parking_spaces := some 1
    rent_price := some 5000
    condo_fee := some 500
    price_per_m2 := some 62
    furnished := true
    url := "https://www.zapimoveis.com.br/imovel/ABC123"
    captured_at := ts0 }

/-- The same listing observed again at the same capture instant with a
different price (a retry carrying corrected values). -/
def wL2 : ZapScraper.Listing :=
  { wL1 with rent_price := some 5200, price_per_m2 := some 65 }

/-- Two-record page for the run-timestamp counterexample (C1). -/
def pageAB : Dict :=
  [("listings", PyVal.list [PyVal.dict [("id", PyVal.str "A")],
                            PyVal.dict [("id", PyVal.str "B")]])]

/-- A transport returning one two-record page for every neighbourhood. -/
def fetchAB (_nb : String) : List Dict := [pageAB]

/-!
Helper lemmas.
-/

/-- An identifier returned by `_get_listing_id`'s key loop is never the
empty string: only a value with non-empty `strip()` is returned. -/
theorem get_listing_id_go_ne_empty (raw : Dict) :
    ∀ ks i, ZapScraper.get_listing_id_go raw ks = some i → i ≠ "" := by
  intro ks
  induction ks with
  | nil => intro i h; simp [ZapScraper.get_listing_id_go] at h
  | cons k ks ih =>
    intro i h
    simp only [ZapScraper.get_listing_id_go] at h
    split at h
    · split_ifs at h with hs
      · exact ih i h
      · injection h with h2
        rw [← h2]
        exact hs
    · exact ih i h

/-- An identifier returned by `_get_listing_id` is never the empty string. -/
theorem get_listing_id_ne_empty (raw : Dict) (i : String)
    (h : ZapScraper.get_listing_id raw = some i) : i ≠ "" :=
  get_listing_id_go_ne_empty raw _ i h

/-- The listing id of a normalised record is exactly what `_get_listing_id`
resolves (and normalisation fails exactly when that resolution fails). -/
theorem normalise_listing_map_id (now : Timestamp) (raw : Dict) :
    (ZapScraper.normalise_listing now raw).map (fun L => L.listing_id)
      = ZapScraper.get_listing_id raw := by
  unfold ZapScraper.normalise_listing
  cases hid : ZapScraper.get_listing_id raw with
  | none => rfl
  | some lid =>
    simp [get_listing_id_ne_empty raw lid hid]

/-- The amended identity rule coincides with the source's key loop. -/
theorem listing_id_amended_go_eq (raw : Dict) :
    ∀ ks, listing_id_amended_go raw ks = ZapScraper.get_listing_id_go raw ks := by
  intro ks
  induction ks with
  | nil => rfl
  | cons k ks ih =>
    simp only [listing_id_amended_go, ZapScraper.get_listing_id_go]
    rcases pyGet raw k with _ | b | n | q | s | l | d <;> simp [ih]

/-- The source's derived-price expression equals the amended formula. -/
theorem ppm2_match_eq (a r : Option ℚ) :
    (match a, r with
     | some a1, some r1 => if a1 ≠ 0 ∧ r1 ≠ 0 then some (r1 / a1) else Option.none
     | _, _ => (Option.none : Option ℚ))
      = price_per_m2_amended r a := by
  cases a with
  | none => cases r <;> rfl
  | some a1 =>
    cases r with
    | none => rfl
    | some r1 =>
      simp only [price_per_m2_amended]
      by_cases ha : a1 = 0 <;> by_cases hr : r1 = 0 <;> simp [ha, hr]

/-!
Claim theorems.
-/

/-- C1 (code_bug evidence): in the code, `captured_at` is stamped inside
`_normalise_listing` with a fresh `datetime.now(timezone.utc)` per listing
(`scraper.py:200`), and no caller restamps it — so two listings emitted by
one `scrape` run carry *different* capture timestamps whenever the clock
advances between their normalisations, contradicting the claimed single
shared run timestamp.  Here, with a clock that advances by one second per
reading, one run over one neighbourhood and one two-record page yields two
listings with distinct `captured_at` values. -/
theorem spec_C1 :
    ((ZapScraper.scrape tickClock 50 Option.none fetchAB ["Pinheiros"] 0).1.map
        (fun L => L.captured_at))
      = [⟨"2024-01-01", "0"⟩, ⟨"2024-01-01", "1"⟩]
    ∧ (⟨"2024-01-01", "0"⟩ : Timestamp) ≠ ⟨"2024-01-01", "1"⟩ := by
  decide

/-- C4, amended: for every raw record the normaliser accepts, the resulting
listing's `price_per_m2` equals `rent_price / area_m2` whenever both are
present and both are non-zero, and is absent otherwise (including when
`area_m2 = 0` or `rent_price = 0`); the computation never raises. -/
theorem spec_C4 (now : Timestamp) (raw : Dict) (L : ZapScraper.Listing)
    (h : ZapScraper.normalise_listing now raw = some L) :
    L.price_per_m2 = price_per_m2_amended L.rent_price L.area_m2 := by
  unfold ZapScraper.normalise_listing at h
  split at h
  · exact absurd h (by simp)
  · rename_i lid heq
    rw [if_neg (get_listing_id_ne_empty raw lid heq)] at h
    injection h with h2
    rw [← h2]
    exact ppm2_match_eq _ _

/-- C4 witness: a concrete accepted record (`cexRaw4a`) instantiating the
amended statement. -/
theorem spec_C4_witness :
    wListing4.price_per_m2 = price_per_m2_amended wListing4.rent_price wListing4.area_m2 :=
  spec_C4 ts0 cexRaw4a wListing4 (by decide)

/-- C4 counterexample: the claim as stated fails on the code.  On
`cexRaw4a` (rent 0, area 50) the code leaves `price_per_m2` absent while
the claim's formula (`rent and area present, area > 0`) makes it present;
on `cexRaw4b` (rent 100, area −10) the code computes a value while the
claim's formula makes it absent. -/
theorem spec_C4_cex :
    ((ZapScraper.normalise_listing ts0 cexRaw4a).map
        (fun L => (L.price_per_m2.isSome, (price_per_m2_claimed L.rent_price L.area_m2).isSome))
      = some (false, true))
    ∧ ((ZapScraper.normalise_listing ts0 cexRaw4b).map
        (fun L => (L.price_per_m2.isSome, (price_per_m2_claimed L.rent_price L.area_m2).isSome))
      = some (true, false)) := by
  decide

/-- C5, amended: the normaliser returns absent exactly when no candidate
identifier key holds a string that is non-empty after trimming; otherwise
the result's `listing_id` is the trimmed value of the first candidate key,
in priority order, holding such a string. -/
theorem spec_C5 (now : Timestamp) (raw : Dict) :
    (ZapScraper.normalise_listing now raw).map (fun L => L.listing_id)
      = listing_id_amended raw := by
  rw [normalise_listing_map_id]
  exact (listing_id_amended_go_eq raw _).symm

/-- C5 counterexample: the claim as stated fails on the code.  On a record
whose only candidate value is the whitespace string `" "` — a *non-empty*
string — the claim's rule produces a listing with the trimmed id `""`,
while the code drops the record entirely. -/
theorem spec_C5_cex :
    (ZapScraper.normalise_listing ts0 cexRaw5).map (fun L => L.listing_id) = Option.none
    ∧ listing_id_claimed cexRaw5 = some ""
    ∧ (Option.none : Option String) ≠ some "" := by
  decide

/-- C8: `_get_float` is total — every input value yields an `Option` result
and no case can raise:  numeric values (Python's `bool` included, being an
`int` subtype) pass through as numbers, strings are parsed after stripping
the grouping separators `.` and `,`, and `None`, lists and dicts — as well
as any string parse failure, which the source catches as `ValueError` —
yield absent. -/
theorem spec_C8 (v : PyVal) :
    (∀ n : Int, v = PyVal.int n → ZapScraper.get_float v = some (n : ℚ))
    ∧ (∀ q : ℚ, v = PyVal.float q → ZapScraper.get_float v = some q)
    ∧ (∀ b : Bool, v = PyVal.bool b →
        ZapScraper.get_float v = some (if b then 1 else 0))
    ∧ (∀ s : String, v = PyVal.str s →
        ZapScraper.get_float v = pyParseFloat (ZapScraper.stripSeparators s))
    ∧ (v = PyVal.none → ZapScraper.get_float v = Option.none)
    ∧ (∀ l : List PyVal, v = PyVal.list l → ZapScraper.get_float v = Option.none)
    ∧ (∀ d : Dict, v = PyVal.dict d → ZapScraper.get_float v = Option.none) := by
  refine ⟨fun n h => ?_, fun q h => ?_, fun b h => ?_, fun s h => ?_, fun h => ?_,
    fun l h => ?_, fun d h => ?_⟩ <;> subst h <;> rfl

/-- C8 witness: the case analysis instantiated at a grouped numeric string
and at a dict. -/
theorem spec_C8_witness :
    ZapScraper.get_float (PyVal.str "60,00")
        = pyParseFloat (ZapScraper.stripSeparators "60,00")
    ∧ ZapScraper.get_float (PyVal.dict []) = Option.none :=
  ⟨(spec_C8 (PyVal.str "60,00")).2.2.2.1 "60,00" rfl,
   (spec_C8 (PyVal.dict [])).2.2.2.2.2.2 [] rfl⟩

/-- C6: when a fetched page (within the ceiling) yields at least one raw
record but fewer than the configured page size, the walk emits that page's
listings and stops — the result is that of processing the short page alone,
whatever further pages the transport would have returned; likewise a page
yielding an empty record collection ends the walk (emitting nothing). -/
theorem spec_C6 (clock : Nat → Timestamp) (page_size : Nat) (maxPages : Option Nat)
    (payload : Dict) (rest : List Dict) (page : Nat) (seen : List String) (tick : Nat)
    (hc : ZapScraper.beyondCeiling maxPages page = false) :
    ((ZapScraper.extract_raw_listings payload).isEmpty = false →
      (ZapScraper.extract_raw_listings payload).length < page_size →
      ZapScraper.iterate_listings_from clock page_size maxPages (payload :: rest) page seen tick
        = ((ZapScraper.emitPage clock (ZapScraper.extract_raw_listings payload) seen tick).1,
           (ZapScraper.emitPage clock (ZapScraper.extract_raw_listings payload) seen tick).2.2))
    ∧ ((ZapScraper.extract_raw_listings payload).isEmpty = true →
      ZapScraper.iterate_listings_from clock page_size maxPages (payload :: rest) page seen tick
        = ([], tick)) := by
  constructor
  · intro hne hlt
    rcases hep : ZapScraper.emitPage clock (ZapScraper.extract_raw_listings payload) seen tick
      with ⟨out1, seen2, tick2⟩
    simp [ZapScraper.iterate_listings_from, hc, hne, hlt, hep]
  · intro hemp
    simp [ZapScraper.iterate_listings_from, hc, hemp]

/-- C6 witness: a two-record page with page size 50 ends the walk; the
pending second page is never consulted. -/
theorem spec_C6_witness :
    ZapScraper.iterate_listings_from tickClock 50 Option.none (pageAB :: [pageAB]) 1 [] 0
      = ((ZapScraper.emitPage tickClock (ZapScraper.extract_raw_listings pageAB) [] 0).1,
         (ZapScraper.emitPage tickClock (ZapScraper.extract_raw_listings pageAB) [] 0).2.2) :=
  (spec_C6 tickClock 50 Option.none pageAB [pageAB] 1 [] 0 rfl).1 (by decide) (by decide)

/-- Unfolding equation: deduplicating an empty identifier list. -/
theorem emitIds_nil (seen : List String) : emitIds seen [] = [] := rfl

/-- Unfolding equation: deduplicating a cons. -/
theorem emitIds_cons (seen : List String) (i : String) (rest : List String) :
    emitIds seen (i :: rest)
      = if i ∈ seen then emitIds seen rest else i :: emitIds (i :: seen) rest := rfl

/-- Membership in a first-occurrence dedup trace. -/
theorem emitIds_mem (a : String) :
    ∀ (l : List String) (seen : List String), a ∈ emitIds seen l ↔ a ∈ l ∧ a ∉ seen := by
  intro l
  induction l with
  | nil => intro seen; simp [emitIds_nil]
  | cons i rest ih =>
    intro seen
    by_cases hmem : i ∈ seen
    · rw [emitIds_cons, if_pos hmem, ih seen]
      constructor
      · rintro ⟨h1, h2⟩
        exact ⟨List.mem_cons_of_mem i h1, h2⟩
      · rintro ⟨h1, h2⟩
        rcases List.mem_cons.mp h1 with h3 | h3
        · subst h3; exact absurd hmem h2
        · exact ⟨h3, h2⟩
    · rw [emitIds_cons, if_neg hmem]
      constructor
      · intro hin
        rcases List.mem_cons.mp hin with h3 | h3
        · subst h3; exact ⟨List.mem_cons_self a rest, hmem⟩
        · obtain ⟨h4, h5⟩ := (ih (i :: seen)).mp h3
          exact ⟨List.mem_cons_of_mem i h4, fun hs => h5 (List.mem_cons_of_mem i hs)⟩
      · rintro ⟨h1, h2⟩
        rcases List.mem_cons.mp h1 with h3 | h3
        · exact List.mem_cons.mpr (Or.inl h3)
        · by_cases hai : a = i
          · exact List.mem_cons.mpr (Or.inl hai)
          · refine List.mem_cons.mpr (Or.inr ((ih (i :: seen)).mpr ⟨h3, ?_⟩))
            intro hs
            rcases List.mem_cons.mp hs with h6 | h6
            · exact hai h6
            · exact h2 h6

/-- A first-occurrence dedup trace has no duplicates. -/
theorem emitIds_nodup : ∀ (l : List String) (seen : List String), (emitIds seen l).Nodup := by
  intro l
  induction l with
  | nil => intro seen; simp [emitIds_nil]
  | cons i rest ih =>
    intro seen
    by_cases hmem : i ∈ seen
    · rw [emitIds_cons, if_pos hmem]; exact ih seen
    · rw [emitIds_cons, if_neg hmem]
      refine List.nodup_cons.mpr ⟨fun hin => ?_, ih (i :: seen)⟩
      exact ((emitIds_mem i rest (i :: seen)).mp hin).2 (List.mem_cons_self i seen)

/-- The dedup trace depends on the seen collection only through membership. -/
theorem emitIds_congr :
    ∀ (l : List String) {s1 s2 : List String}, (∀ a, a ∈ s1 ↔ a ∈ s2) →
      emitIds s1 l = emitIds s2 l := by
  intro l
  induction l with
  | nil => intro s1 s2 h; rfl
  | cons i rest ih =>
    intro s1 s2 h
    by_cases hmem : i ∈ s1
    · rw [emitIds_cons, if_pos hmem, emitIds_cons, if_pos ((h i).mp hmem), ih h]
    · rw [emitIds_cons, if_neg hmem, emitIds_cons, if_neg (fun hs => hmem ((h i).mpr hs))]
      have h2 : ∀ a, a ∈ i :: s1 ↔ a ∈ i :: s2 := fun a => by
        rw [List.mem_cons, List.mem_cons, h a]
      rw [@ih (i :: s1) (i :: s2) h2]

/-- Deduplicating a concatenation: the second part is deduplicated against
the seen collection as it stands after the first part. -/
theorem emitIds_append :
    ∀ (l1 l2 : List String) (seen : List String),
      emitIds seen (l1 ++ l2) = emitIds seen l1 ++ emitIds (emitIds seen l1 ++ seen) l2 := by
  intro l1
  induction l1 with
  | nil =>
    intro l2 seen
    simp [emitIds_nil]
  | cons i rest ih =>
    intro l2 seen
    by_cases hmem : i ∈ seen
    · rw [List.cons_append, emitIds_cons, if_pos hmem, emitIds_cons, if_pos hmem, ih l2 seen]
    · rw [List.cons_append, emitIds_cons, if_neg hmem, emitIds_cons, if_neg hmem,
        ih l2 (i :: seen), List.cons_append]
      have hcg : emitIds (emitIds (i :: seen) rest ++ (i :: seen)) l2
          = emitIds ((i :: emitIds (i :: seen) rest) ++ seen) l2 :=
        emitIds_congr l2 (fun a => by
          simp only [List.mem_append, List.mem_cons]
          tauto)
      rw [hcg]

/-- The page loop's emitted identifiers are exactly the first-occurrence
dedup of the page's resolvable identifiers, and the grown seen collection
holds exactly the old one plus the newly emitted identifiers. -/
theorem emitPage_spec (clock : Nat → Timestamp) :
    ∀ (raws : List Dict) (seen : List String) (tick : Nat),
      ((ZapScraper.emitPage clock raws seen tick).1.map (fun L => L.listing_id)
          = emitIds seen (raws.filterMap ZapScraper.get_listing_id))
      ∧ (∀ a, a ∈ (ZapScraper.emitPage clock raws seen tick).2.1 ↔
            a ∈ seen ∨ a ∈ emitIds seen (raws.filterMap ZapScraper.get_listing_id)) := by
  intro raws
  induction raws with
  | nil =>
    intro seen tick
    constructor
    · rfl
    · intro a; simp [ZapScraper.emitPage, emitIds_nil]
  | cons raw rest ih =>
    intro seen tick
    cases hid : ZapScraper.get_listing_id raw with
    | none =>
      have hn : ZapScraper.normalise_listing (clock tick) raw = Option.none := by
        have hmap := normalise_listing_map_id (clock tick) raw
        rw [hid] at hmap
        exact Option.map_eq_none'.mp hmap
      have hstep : ZapScraper.emitPage clock (raw :: rest) seen tick
          = ZapScraper.emitPage clock rest seen tick := by
        simp [ZapScraper.emitPage, hn]
      rw [hstep]
      have hids : (raw :: rest).filterMap ZapScraper.get_listing_id
          = rest.filterMap ZapScraper.get_listing_id := by
        simp [List.filterMap_cons, hid]
      rw [hids]
      exact ih seen tick
    | some i =>
      obtain ⟨L, hL, hLid⟩ :
          ∃ L, ZapScraper.normalise_listing (clock tick) raw = some L ∧ L.listing_id = i := by
        have hmap := normalise_listing_map_id (clock tick) raw
        rw [hid] at hmap
        cases hn : ZapScraper.normalise_listing (clock tick) raw with
        | none => rw [hn] at hmap; exact absurd hmap (by simp)
        | some L =>
          rw [hn] at hmap
          exact ⟨L, rfl, Option.some.inj hmap⟩
      have hids : (raw :: rest).filterMap ZapScraper.get_listing_id
          = i :: rest.filterMap ZapScraper.get_listing_id := by
        simp [List.filterMap_cons, hid]
      rw [hids, emitIds_cons]
      by_cases hmem : i ∈ seen
      · have hstep : ZapScraper.emitPage clock (raw :: rest) seen tick
            = ZapScraper.emitPage clock rest seen (tick + 1) := by
          simp [ZapScraper.emitPage, hL, hLid, hmem]
        rw [hstep, if_pos hmem]
        exact ih seen (tick + 1)
      · rcases hep : ZapScraper.emitPage clock rest (i :: seen) (tick + 1)
          with ⟨out2, seen2, tick2⟩
        have hstep : ZapScraper.emitPage clock (raw :: rest) seen tick
            = (L :: out2, seen2, tick2) := by
          simp [ZapScraper.emitPage, hL, hLid, hmem, hep]
        rw [hstep, if_neg hmem]
        have ihr := ih (i :: seen) (tick + 1)
        rw [hep] at ihr
        constructor
        · simp only [List.map_cons, hLid]
          rw [ihr.1]
        · intro a
          rw [show ((L :: out2, seen2, tick2) : List ZapScraper.Listing ×
              List String × Nat).2.1 = seen2 from rfl]
          rw [show ((out2, seen2, tick2) : List ZapScraper.Listing ×
              List String × Nat).2.1 = seen2 from rfl] at ihr
          rw [ihr.2 a, List.mem_cons, List.mem_cons]
          tauto

/-- The identifiers a walk emits are the first-occurrence dedup (against the
initial seen collection) of the resolvable identifiers of the raw records
of the pages it consumes. -/
theorem iterate_ids (clock : Nat → Timestamp) (page_size : Nat) (maxPages : Option Nat) :
    ∀ (pages : List Dict) (page : Nat) (seen : List String) (tick : Nat),
      (ZapScraper.iterate_listings_from clock page_size maxPages pages page seen tick).1.map
          (fun L => L.listing_id)
        = emitIds seen ((ZapScraper.consumedRaws page_size maxPages pages page).filterMap
            ZapScraper.get_listing_id) := by
  intro pages
  induction pages with
  | nil => intro page seen tick; rfl
  | cons payload rest ih =>
    intro page seen tick
    by_cases hc : ZapScraper.beyondCeiling maxPages page = true
    · simp [ZapScraper.iterate_listings_from, ZapScraper.consumedRaws, hc, emitIds_nil]
    · rw [Bool.not_eq_true] at hc
      by_cases hemp : (ZapScraper.extract_raw_listings payload).isEmpty = true
      · simp [ZapScraper.iterate_listings_from, ZapScraper.consumedRaws, hc, hemp, emitIds_nil]
      · rw [Bool.not_eq_true] at hemp
        rcases hep : ZapScraper.emitPage clock (ZapScraper.extract_raw_listings payload) seen tick
          with ⟨out1, seen2, tick2⟩
        have hep1 := (emitPage_spec clock (ZapScraper.extract_raw_listings payload) seen tick).1
        have hep2 := (emitPage_spec clock (ZapScraper.extract_raw_listings payload) seen tick).2
        rw [hep] at hep1 hep2
        by_cases hlen : (ZapScraper.extract_raw_listings payload).length < page_size
        · have hit : ZapScraper.iterate_listings_from clock page_size maxPages
              (payload :: rest) page seen tick = (out1, tick2) := by
            simp [ZapScraper.iterate_listings_from, hc, hemp, hlen, hep]
          have hcr : ZapScraper.consumedRaws page_size maxPages (payload :: rest) page
              = ZapScraper.extract_raw_listings payload := by
            simp [ZapScraper.consumedRaws, hc, hemp, hlen]
          rw [hit, hcr]
          exact hep1
        · rcases hrec : ZapScraper.iterate_listings_from clock page_size maxPages rest
              (page + 1) seen2 tick2 with ⟨out2, tick3⟩
          have hit : ZapScraper.iterate_listings_from clock page_size maxPages
              (payload :: rest) page seen tick = (out1 ++ out2, tick3) := by
            simp [ZapScraper.iterate_listings_from, hc, hemp, hlen, hep, hrec]
          have hcr : ZapScraper.consumedRaws page_size maxPages (payload :: rest) page
              = ZapScraper.extract_raw_listings payload
                ++ ZapScraper.consumedRaws page_size maxPages rest (page + 1) := by
            simp [ZapScraper.consumedRaws, hc, hemp, hlen]
          have ihr := ih (page + 1) seen2 tick2
          rw [hrec] at ihr
          rw [hit, hcr, List.filterMap_append, emitIds_append, List.map_append, hep1, ihr]
          congr 1
          exact emitIds_congr _ (fun a => by
            have h3 : a ∈ seen2 ↔ a ∈ seen ∨ a ∈ emitIds seen
                ((ZapScraper.extract_raw_listings payload).filterMap
                  ZapScraper.get_listing_id) := hep2 a
            rw [List.mem_append, h3]
            tauto)

/-- A dedup trace started from an empty seen collection has the length of
the set of distinct identifiers. -/
theorem emitIds_nil_length (l : List String) :
    (emitIds [] l).length = l.toFinset.card := by
  have hnd := emitIds_nodup l []
  have hset : (emitIds [] l).toFinset = l.toFinset := by
    ext a
    simp [List.mem_toFinset, emitIds_mem]
  calc (emitIds [] l).length = (emitIds [] l).toFinset.card :=
        (List.toFinset_card_of_nodup hnd).symm
    _ = l.toFinset.card := by rw [hset]

/-- C7: within one pagination walk (any page payloads, any page size, any
ceiling), no two emitted listings share a `listing_id`, and the number of
emitted listings equals the number of distinct identifiers among the
normalisable raw records of the consumed pages. -/
theorem spec_C7 (clock : Nat → Timestamp) (page_size : Nat) (maxPages : Option Nat)
    (pages : List Dict) (page : Nat) (tick : Nat) :
    ((ZapScraper.iterate_listings_from clock page_size maxPages pages page [] tick).1.map
        (fun L => L.listing_id)).Nodup
    ∧ (ZapScraper.iterate_listings_from clock page_size maxPages pages page [] tick).1.length
        = ((ZapScraper.consumedRaws page_size maxPages pages page).filterMap
            ZapScraper.get_listing_id).toFinset.card := by
  have hmap := iterate_ids clock page_size maxPages pages page [] tick
  constructor
  · rw [hmap]
    exact emitIds_nodup _ []
  · calc (ZapScraper.iterate_listings_from clock page_size maxPages pages page [] tick).1.length
        = ((ZapScraper.iterate_listings_from clock page_size maxPages pages
            page [] tick).1.map (fun L => L.listing_id)).length := (List.length_map _ _).symm
      _ = _ := by rw [hmap]; exact emitIds_nil_length _

/-- Unfolding equation: history upsert into an empty table. -/
theorem upsertHistory_nil (L : ZapScraper.Listing) :
    upsertHistory [] L = [historyOf L] := rfl

/-- Unfolding equation: history upsert, one row at a time. -/
theorem upsertHistory_cons (h : HistoryRow) (rest : List HistoryRow) (L : ZapScraper.Listing) :
    upsertHistory (h :: rest) L
      = if h.listing_id = L.listing_id ∧ h.captured_at = L.captured_at
        then historyOf L :: rest else h :: upsertHistory rest L := rfl

/-- Unfolding equation: snapshot upsert into an empty table. -/
theorem upsertSnapshot_nil (L : ZapScraper.Listing) :
    upsertSnapshot [] L = [snapshotOfNew L] := rfl

/-- Unfolding equation: snapshot upsert, one row at a time. -/
theorem upsertSnapshot_cons (r : SnapshotRow) (rest : List SnapshotRow)
    (L : ZapScraper.Listing) :
    upsertSnapshot (r :: rest) L
      = if r.listing_id = L.listing_id
        then snapshotUpdate r L :: rest else r :: upsertSnapshot rest L := rfl

/-- Re-running the same history upsert changes nothing. -/
theorem upsertHistory_idem (L : ZapScraper.Listing) :
    ∀ rows, upsertHistory (upsertHistory rows L) L = upsertHistory rows L := by
  intro rows
  induction rows with
  | nil =>
    rw [upsertHistory_nil, upsertHistory_cons, if_pos ⟨rfl, rfl⟩]
  | cons h rest ih =>
    by_cases hp : h.listing_id = L.listing_id ∧ h.captured_at = L.captured_at
    · rw [upsertHistory_cons, if_pos hp, upsertHistory_cons, if_pos ⟨rfl, rfl⟩]
    · rw [upsertHistory_cons, if_neg hp, upsertHistory_cons, if_neg hp, ih]

/-- Re-running the same snapshot upsert changes nothing. -/
theorem upsertSnapshot_idem (L : ZapScraper.Listing) :
    ∀ rows, upsertSnapshot (upsertSnapshot rows L) L = upsertSnapshot rows L := by
  intro rows
  induction rows with
  | nil =>
    rw [upsertSnapshot_nil, upsertSnapshot_cons,
      if_pos (show (snapshotOfNew L).listing_id = L.listing_id from rfl)]
    rfl
  | cons r rest ih =>
    by_cases hp : r.listing_id = L.listing_id
    · rw [upsertSnapshot_cons, if_pos hp, upsertSnapshot_cons,
        if_pos (show (snapshotUpdate r L).listing_id = L.listing_id from rfl)]
      rfl
    · rw [upsertSnapshot_cons, if_neg hp, upsertSnapshot_cons, if_neg hp, ih]

/-- After a history upsert there is exactly one row for the listing's
`(listing_id, captured_at)` pair, and it carries the upserted values. -/
theorem filter_upsertHistory (L : ZapScraper.Listing) :
    ∀ rows : List HistoryRow,
      (rows.map (fun h => (h.listing_id, h.captured_at))).Nodup →
      (upsertHistory rows L).filter
          (fun h => decide (h.listing_id = L.listing_id ∧ h.captured_at = L.captured_at))
        = [historyOf L] := by
  intro rows
  induction rows with
  | nil =>
    intro _
    rw [upsertHistory_nil, List.filter_cons,
      if_pos (decide_eq_true (show (historyOf L).listing_id = L.listing_id
        ∧ (historyOf L).captured_at = L.captured_at from ⟨rfl, rfl⟩))]
    rfl
  | cons h rest ih =>
    intro hnd
    rw [List.map_cons, List.nodup_cons] at hnd
    obtain ⟨hnotin, hnd2⟩ := hnd
    by_cases hp : h.listing_id = L.listing_id ∧ h.captured_at = L.captured_at
    · rw [upsertHistory_cons, if_pos hp, List.filter_cons,
        if_pos (decide_eq_true (show (historyOf L).listing_id = L.listing_id
          ∧ (historyOf L).captured_at = L.captured_at from ⟨rfl, rfl⟩))]
      have hrest : rest.filter
          (fun x => decide (x.listing_id = L.listing_id ∧ x.captured_at = L.captured_at))
          = [] := by
        rw [List.filter_eq_nil_iff]
        intro x hx hpx
        have hx2 := of_decide_eq_true hpx
        apply hnotin
        have hkey : (h.listing_id, h.captured_at) = (x.listing_id, x.captured_at) := by
          rw [hp.1, hp.2, hx2.1, hx2.2]
        rw [hkey]
        exact List.mem_map_of_mem _ hx
      rw [hrest]
    · rw [upsertHistory_cons, if_neg hp, List.filter_cons,
        if_neg (fun hc => hp (of_decide_eq_true hc))]
      exact ih hnd2

/-- Every key present after a history upsert is the upserted key or one that
was already present. -/
theorem upsertHistory_mem_keys (L : ZapScraper.Listing) :
    ∀ (rows : List HistoryRow) (k : String × Timestamp),
      k ∈ (upsertHistory rows L).map (fun h => (h.listing_id, h.captured_at)) →
      k = (L.listing_id, L.captured_at)
        ∨ k ∈ rows.map (fun h => (h.listing_id, h.captured_at)) := by
  intro rows
  induction rows with
  | nil =>
    intro k hk
    rw [upsertHistory_nil, List.map_cons, List.mem_cons] at hk
    rcases hk with hk | hk
    · exact Or.inl hk
    · exact absurd hk (by simp)
  | cons h rest ih =>
    intro k hk
    by_cases hp : h.listing_id = L.listing_id ∧ h.captured_at = L.captured_at
    · rw [upsertHistory_cons, if_pos hp, List.map_cons, List.mem_cons] at hk
      rcases hk with hk | hk
      · exact Or.inl hk
      · right; rw [List.map_cons, List.mem_cons]; exact Or.inr hk
    · rw [upsertHistory_cons, if_neg hp, List.map_cons, List.mem_cons] at hk
      rcases hk with hk | hk
      · right; rw [List.map_cons, List.mem_cons]; exact Or.inl hk
      · rcases ih k hk with h1 | h1
        · exact Or.inl h1
        · right; rw [List.map_cons, List.mem_cons]; exact Or.inr h1

/-- A history upsert preserves the UNIQUE constraint on
`(listing_id, captured_at)`. -/
theorem upsertHistory_nodup_keys (L : ZapScraper.Listing) :
    ∀ rows : List HistoryRow,
      (rows.map (fun h => (h.listing_id, h.captured_at))).Nodup →
      ((upsertHistory rows L).map (fun h => (h.listing_id, h.captured_at))).Nodup := by
  intro rows
  induction rows with
  | nil =>
    intro _
    rw [upsertHistory_nil]
    simp
  | cons h rest ih =>
    intro hnd
    rw [List.map_cons, List.nodup_cons] at hnd
    obtain ⟨hnotin, hnd2⟩ := hnd
    by_cases hp : h.listing_id = L.listing_id ∧ h.captured_at = L.captured_at
    · rw [upsertHistory_cons, if_pos hp, List.map_cons, List.nodup_cons]
      refine ⟨fun hin => hnotin ?_, hnd2⟩
      have hkey : ((historyOf L).listing_id, (historyOf L).captured_at)
          = (h.listing_id, h.captured_at) := by
        simp [historyOf, hp.1, hp.2]
      rwa [hkey] at hin
    · rw [upsertHistory_cons, if_neg hp, List.map_cons, List.nodup_cons]
      refine ⟨fun hin => ?_, ih hnd2⟩
      rcases upsertHistory_mem_keys L rest _ hin with h1 | h1
      · injection h1 with e1 e2
        exact hp ⟨e1, e2⟩
      · exact hnotin h1

/-- When no snapshot row has the listing's id, the upsert appends the new
row, which the primary-key lookup then finds. -/
theorem find_upsertSnapshot_none (L : ZapScraper.Listing) :
    ∀ rows : List SnapshotRow,
      rows.find? (fun r => decide (r.listing_id = L.listing_id)) = Option.none →
      (upsertSnapshot rows L).find? (fun r => decide (r.listing_id = L.listing_id))
        = some (snapshotOfNew L) := by
  intro rows
  induction rows with
  | nil =>
    intro _
    rw [upsertSnapshot_nil]
    have hpr : decide ((snapshotOfNew L).listing_id = L.listing_id) = true :=
      decide_eq_true (show (snapshotOfNew L).listing_id = L.listing_id from rfl)
    simp only [List.find?, hpr]
  | cons r rest ih =>
    intro hF
    cases hpr : (decide (r.listing_id = L.listing_id)) with
    | true =>
      simp [List.find?, hpr] at hF
    | false =>
      simp only [List.find?, hpr] at hF
      have hp : ¬ r.listing_id = L.listing_id := of_decide_eq_false hpr
      rw [upsertSnapshot_cons, if_neg hp]
      simp only [List.find?, hpr]
      exact ih hF

/-- When a snapshot row with the listing's id exists, the upsert replaces
the first (by the primary key: only) such row with its update in place. -/
theorem find_upsertSnapshot_some (L : ZapScraper.Listing) :
    ∀ (rows : List SnapshotRow) (r0 : SnapshotRow),
      rows.find? (fun r => decide (r.listing_id = L.listing_id)) = some r0 →
      (upsertSnapshot rows L).find? (fun r => decide (r.listing_id = L.listing_id))
        = some (snapshotUpdate r0 L) := by
  intro rows
  induction rows with
  | nil =>
    intro r0 hF
    exact absurd hF (by simp)
  | cons r rest ih =>
    intro r0 hF
    cases hpr : (decide (r.listing_id = L.listing_id)) with
    | true =>
      simp only [List.find?, hpr] at hF
      injection hF with hF2
      have hp : r.listing_id = L.listing_id := of_decide_eq_true hpr
      rw [upsertSnapshot_cons, if_pos hp]
      have hpr2 : decide ((snapshotUpdate r L).listing_id = L.listing_id) = true :=
        decide_eq_true (show (snapshotUpdate r L).listing_id = L.listing_id from rfl)
      simp only [List.find?, hpr2]
      rw [hF2]
    | false =>
      simp only [List.find?, hpr] at hF
      have hp : ¬ r.listing_id = L.listing_id := of_decide_eq_false hpr
      rw [upsertSnapshot_cons, if_neg hp]
      simp only [List.find?, hpr]
      exact ih r0 hF

/-- A snapshot upsert never removes an id from the snapshot table. -/
theorem upsertSnapshot_mem_ids (L : ZapScraper.Listing) :
    ∀ (rows : List SnapshotRow) (id : String),
      id ∈ rows.map (fun r => r.listing_id) →
      id ∈ (upsertSnapshot rows L).map (fun r => r.listing_id) := by
  intro rows
  induction rows with
  | nil =>
    intro id hid
    exact absurd hid (by simp)
  | cons r rest ih =>
    intro id hid
    rw [List.map_cons, List.mem_cons] at hid
    by_cases hp : r.listing_id = L.listing_id
    · rw [upsertSnapshot_cons, if_pos hp, List.map_cons, List.mem_cons]
      rcases hid with hid | hid
      · left
        rw [hid, hp]
        rfl
      · exact Or.inr hid
    · rw [upsertSnapshot_cons, if_neg hp, List.map_cons, List.mem_cons]
      rcases hid with hid | hid
      · exact Or.inl hid
      · exact Or.inr (ih id hid)

/-- A clean `persist_many` loop folds `persist_listing` over the stream and
counts the consumed listings. -/
theorem persistManyGo_ok :
    ∀ (xs : List (Except String ZapScraper.Listing)) (S : DBState) (n : Nat),
      (∀ x ∈ xs, ∃ L, x = Except.ok L) →
      persistManyGo S n xs
        = some (xs.foldl (fun T x => match x with
            | Except.ok L => persist_listing T L
            | Except.error _ => T) S, n + xs.length) := by
  intro xs
  induction xs with
  | nil => intro S n _; rfl
  | cons x rest ih =>
    intro S n hok
    obtain ⟨L, hL⟩ := hok x (List.mem_cons_self x rest)
    subst hL
    have hstep : persistManyGo S n (Except.ok L :: rest)
        = persistManyGo (persist_listing S L) (n + 1) rest := rfl
    rw [hstep, ih (persist_listing S L) (n + 1)
      (fun y hy => hok y (List.mem_cons_of_mem _ hy))]
    have harith : n + 1 + rest.length = n + (rest.length + 1) := by omega
    rw [List.foldl_cons, List.length_cons, harith]

/-- An error anywhere in the stream makes the `persist_many` loop raise
instead of returning. -/
theorem persistManyGo_error :
    ∀ (xs : List (Except String ZapScraper.Listing)) (S : DBState) (n : Nat),
      (∃ e, Except.error e ∈ xs) →
      persistManyGo S n xs = Option.none := by
  intro xs
  induction xs with
  | nil =>
    intro S n he
    obtain ⟨e, he2⟩ := he
    exact absurd he2 (by simp)
  | cons x rest ih =>
    intro S n he
    cases x with
    | error e => rfl
    | ok L =>
      obtain ⟨e, he2⟩ := he
      rw [List.mem_cons] at he2
      rcases he2 with he2 | he2
      · exact absurd he2 (by simp)
      · exact ih (persist_listing S L) (n + 1) ⟨e, he2⟩

/-- The `persist_many` loop only grows the set of snapshot ids. -/
theorem persistManyGo_mem_ids :
    ∀ (xs : List (Except String ZapScraper.Listing)) (S : DBState) (n : Nat)
      (S2 : DBState) (n2 : Nat),
      persistManyGo S n xs = some (S2, n2) →
      ∀ id, id ∈ S.listings.map (fun r => r.listing_id) →
        id ∈ S2.listings.map (fun r => r.listing_id) := by
  intro xs
  induction xs with
  | nil =>
    intro S n S2 n2 hgo id hid
    injection hgo with hgo2
    injection hgo2 with e1 e2
    rw [← e1]
    exact hid
  | cons x rest ih =>
    intro S n S2 n2 hgo id hid
    cases x with
    | error e => exact absurd hgo (by simp [persistManyGo])
    | ok L =>
      have hstep : persistManyGo S n (Except.ok L :: rest)
          = persistManyGo (persist_listing S L) (n + 1) rest := rfl
      rw [hstep] at hgo
      exact ih (persist_listing S L) (n + 1) S2 n2 hgo id (upsertSnapshot_mem_ids L S.listings id hid)

/-- C2: persisting a listing twice with the same `(listing_id, captured_at)`
pair leaves exactly one `price_history` row for that pair — holding the
later call's values — and persisting the same listing twice is equivalent
to persisting it once. -/
theorem spec_C2 (S : DBState) (L1 L2 : ZapScraper.Listing) (hWF : S.WF)
    (hid : L2.listing_id = L1.listing_id) (hcap : L2.captured_at = L1.captured_at) :
    ((persist_listing (persist_listing S L1) L2).history.filter
        (fun h => decide (h.listing_id = L2.listing_id ∧ h.captured_at = L2.captured_at)))
      = [historyOf L2]
    ∧ persist_listing (persist_listing S L2) L2 = persist_listing S L2 := by
  constructor
  · exact filter_upsertHistory L2 _ (upsertHistory_nodup_keys L1 S.history hWF.2)
  · simp [persist_listing, upsertSnapshot_idem, upsertHistory_idem]

/-- C2 witness: the same listing persisted twice into the empty database at
one capture instant (with the retry carrying updated values). -/
theorem spec_C2_witness :
    ((persist_listing (persist_listing dbEmpty wL1) wL2).history.filter
        (fun h => decide (h.listing_id = wL2.listing_id ∧ h.captured_at = wL2.captured_at)))
      = [historyOf wL2]
    ∧ persist_listing (persist_listing dbEmpty wL2) wL2 = persist_listing dbEmpty wL2 :=
  spec_C2 dbEmpty wL1 wL2 ⟨List.nodup_nil, List.nodup_nil⟩ rfl rfl

/-- C3: persisting a listing inserts a snapshot row with
`first_seen = last_seen = captured_at` when none exists for its id,
overwrites the descriptive fields and advances `last_seen` (leaving
`first_seen` alone) when one does, and no persistence operation —
`persist_listing` or `persist_many` — ever deletes a snapshot row. -/
theorem spec_C3 (S : DBState) (L : ZapScraper.Listing) (hWF : S.WF) :
    (S.listings.find? (fun r => decide (r.listing_id = L.listing_id)) = Option.none →
      (persist_listing S L).listings.find? (fun r => decide (r.listing_id = L.listing_id))
        = some (snapshotOfNew L))
    ∧ (∀ r0, S.listings.find? (fun r => decide (r.listing_id = L.listing_id)) = some r0 →
      (persist_listing S L).listings.find? (fun r => decide (r.listing_id = L.listing_id))
        = some (snapshotUpdate r0 L))
    ∧ (snapshotOfNew L).first_seen = L.captured_at
    ∧ (snapshotOfNew L).last_seen = L.captured_at
    ∧ (∀ r0 : SnapshotRow, (snapshotUpdate r0 L).first_seen = r0.first_seen
        ∧ (snapshotUpdate r0 L).last_seen = L.captured_at)
    ∧ (∀ id, id ∈ S.listings.map (fun r => r.listing_id) →
        id ∈ (persist_listing S L).listings.map (fun r => r.listing_id))
    ∧ (∀ (xs : List (Except String ZapScraper.Listing)) id,
        id ∈ S.listings.map (fun r => r.listing_id) →
        id ∈ (persist_many S xs).1.listings.map (fun r => r.listing_id)) := by
  refine ⟨fun hF => find_upsertSnapshot_none L S.listings hF,
    fun r0 hF => find_upsertSnapshot_some L S.listings r0 hF,
    rfl, rfl, fun r0 => ⟨rfl, rfl⟩,
    fun id hid => upsertSnapshot_mem_ids L S.listings id hid,
    fun xs id hid => ?_⟩
  unfold persist_many
  cases hgo : persistManyGo S 0 xs with
  | none => exact hid
  | some p =>
    rcases p with ⟨S2, n2⟩
    exact persistManyGo_mem_ids xs S 0 S2 n2 hgo id hid

/-- C3 witness: inserting into the empty database. -/
theorem spec_C3_witness :
    (persist_listing dbEmpty wL1).listings.find?
        (fun r => decide (r.listing_id = wL1.listing_id)) = some (snapshotOfNew wL1) :=
  (spec_C3 dbEmpty wL1 ⟨List.nodup_nil, List.nodup_nil⟩).1 rfl

/-- C10: `persist_many` consumes its whole input inside one transaction.
When pulling any element of the stream raises, the transaction is rolled
back and the database state is exactly the one before the call, with no
count returned; on a clean pass every listing is persisted in order and the
returned count is the number of listings consumed. -/
theorem spec_C10 (S : DBState) (xs : List (Except String ZapScraper.Listing)) :
    ((∃ e, Except.error e ∈ xs) → persist_many S xs = (S, Option.none))
    ∧ ((∀ x ∈ xs, ∃ L, x = Except.ok L) →
        persist_many S xs
          = (xs.foldl (fun T x => match x with
              | Except.ok L => persist_listing T L
              | Except.error _ => T) S, some xs.length)) := by
  constructor
  · intro he
    unfold persist_many
    rw [persistManyGo_error xs S 0 he]
  · intro hok
    unfold persist_many
    rw [persistManyGo_ok xs S 0 hok]
    rw [Nat.zero_add]

/-- C10 witness: a stream that raises persists nothing; a clean two-element
stream returns count 2. -/
theorem spec_C10_witness :
    persist_many dbEmpty [Except.error "boom"] = (dbEmpty, Option.none)
    ∧ (persist_many dbEmpty [Except.ok wL1, Except.ok wL2]).2 = some 2 := by
  constructor
  · exact (spec_C10 dbEmpty [Except.error "boom"]).1 ⟨"boom", List.mem_singleton_self _⟩
  · rw [(spec_C10 dbEmpty [Except.ok wL1, Except.ok wL2]).2
      (by intro x hx; rcases List.mem_cons.mp hx with h | h;
          · exact ⟨wL1, h⟩
          · exact ⟨wL2, by simpa using h⟩)]
    rfl

/-- C9: `get_neighborhood_daily_average` groups the neighborhood's (joined,
optionally furnished-filtered) history points by calendar date — one output
row per date, in ascending date order — counting every point of the date in
`listings` while averaging `price_per_m2` only over the points where it is
present (`NULL` entries are skipped by `AVG`, and all-`NULL` groups average
to absent); when the furnished filter is given, only points with the
matching flag are considered at all. -/
theorem spec_C9 (S : DBState) (nb : String) (furn : Option Bool) (hWF : S.WF) :
    List.Sorted (· ≤ ·) ((get_neighborhood_daily_average S nb furn).map
        (fun r => r.captured_date))
    ∧ ((get_neighborhood_daily_average S nb furn).map (fun r => r.captured_date)).Nodup
    ∧ (∀ d, d ∈ (get_neighborhood_daily_average S nb furn).map (fun r => r.captured_date)
        ↔ d ∈ (joinedHistory S nb furn).map (fun ph => ph.captured_at.date))
    ∧ (∀ r ∈ get_neighborhood_daily_average S nb furn,
        r.listings = ((joinedHistory S nb furn).filter
            (fun ph => ph.captured_at.date == r.captured_date)).length
        ∧ r.avg_price_per_m2 = avgOpt (((joinedHistory S nb furn).filter
            (fun ph => ph.captured_at.date == r.captured_date)).filterMap
              (fun ph => ph.price_per_m2))
        ∧ r.avg_rent_price = avgOpt (((joinedHistory S nb furn).filter
            (fun ph => ph.captured_at.date == r.captured_date)).filterMap
              (fun ph => ph.rent_price)))
    ∧ (∀ b, furn = some b →
        ∀ ph ∈ joinedHistory S nb furn, ph.furnished = (if b then 1 else 0)) := by
  have hdates : (get_neighborhood_daily_average S nb furn).map (fun r => r.captured_date)
      = (((joinedHistory S nb furn).map
          (fun ph => ph.captured_at.date)).dedup).insertionSort (· ≤ ·) := by
    unfold get_neighborhood_daily_average
    rw [List.map_map]
    simp [Function.comp_def]
  refine ⟨?_, ?_, ?_, ?_, ?_⟩
  · rw [hdates]
    exact List.sorted_insertionSort _ _
  · rw [hdates]
    exact ((List.perm_insertionSort (· ≤ ·) _).symm.nodup_iff).mp (List.nodup_dedup _)
  · intro d
    rw [hdates, (List.perm_insertionSort (· ≤ ·) _).mem_iff, List.mem_dedup]
  · intro r hr
    simp only [get_neighborhood_daily_average] at hr
    obtain ⟨d, hd, hmk⟩ := List.mem_map.mp hr
    subst hmk
    exact ⟨rfl, rfl, rfl⟩
  · intro b hb ph hph
    subst hb
    obtain ⟨hmem, hcond⟩ := List.mem_filter.mp hph
    rw [Bool.and_eq_true] at hcond
    simpa using hcond.2

/-- C9 witness: the query over a one-listing database. -/
theorem spec_C9_witness :
    List.Sorted (· ≤ ·) ((get_neighborhood_daily_average (persist_listing dbEmpty wL1)
        "Pinheiros" Option.none).map (fun r => r.captured_date)) :=
  (spec_C9 (persist_listing dbEmpty wL1) "Pinheiros" Option.none ⟨by decide, by decide⟩).1
